import Mathlib

/-!
Verification development for the GitLab DevOps-metrics MCP server
(`mcp_main.py`).  The core modelled here is the metrics aggregation and
scoring engine: the DORA-metrics derivation (`get_dora_metrics`), the issue
age bucketing of `analyze_issues`, the health scoring and banding of
`project_health_report`, and the failure normalisation of
`make_gitlab_request`.

Modelling conventions (shallow embedding of the Python source):
* Timestamps are modelled at the parsing boundary: a record field holding an
  ISO-8601 timestamp string is represented by `TsField` — either absent
  (the key is missing / the value is falsy, so `record.get(key)` is falsy),
  present but unparsable (so `datetime.fromisoformat` raises `ValueError`),
  or present and parsing to an instant, represented as an integer number of
  seconds since the epoch.  `timedelta.days` is floor division of the
  difference by 86400 (`Int.fdiv`), `timedelta.total_seconds()/3600` is the
  exact rational difference divided by 3600.
* A Python function that can raise an uncaught exception is modelled in the
  `Except` monad; `.error` means the call raised (no value is produced).
* A fetched collection is an `Option (List _)`: `none` is a failed fetch
  (the fetcher returned `None`), `some l` a successful fetch of `l`.  The
  source's `results[i] or []` is `Option.getD _ []` (for a typed list value
  the two agree: `None or []` and `[] or []` are both `[]`).
* The report-rendering into formatted strings is outside the modelled core
  (the spec excludes the renderer); the functions below return the
  structured values the renderer would print.
-/

namespace GitlabInsights

/-- A timestamp-valued field of a JSON record, seen through the date-parsing
boundary: `absent` = key missing or value falsy; `invalid` = present but
`datetime.fromisoformat` raises; `valid t` = parses to the instant `t`
(seconds since epoch, timezone-aware). -/
inductive TsField where
  | absent : TsField
  | invalid : TsField
  | valid : Int → TsField
deriving DecidableEq, Repr

/-- Result of `record[key]` followed by `fromisoformat`: raises (KeyError /
ValueError) unless the field is present and parsable.  Used for the
`created_at` accesses, which index the dict directly. -/
def reqParse : TsField → Except Unit Int
  | .absent => .error ()
  | .invalid => .error ()
  | .valid t => .ok t

/-- Result of `record.get(key)` guarding a parse (`fromisoformat(...) if
record.get(key) else None`): an absent/falsy field yields `none`, a present
but unparsable field raises, a parsable field yields its instant.  Used for
the `merged_at` / `closed_at` accesses. -/
def optParse : TsField → Except Unit (Option Int)
  | .absent => .ok none
  | .invalid => .error ()
  | .valid t => .ok (some t)

/-- A merge-request record, restricted to the fields the modelled
derivations read. -/
structure MergeRequest where
  created_at : TsField
  merged_at : TsField
deriving DecidableEq, Repr

/-- An incident record (a closed issue labelled `incident`), restricted to
the fields the DORA derivation reads. -/
structure Incident where
  created_at : TsField
  closed_at : TsField
deriving DecidableEq, Repr

/-- A deployment record; the derivation reads only `status` via `.get`. -/
structure Deployment where
  status : Option String
deriving DecidableEq, Repr

/-- A release record; the DORA derivation only counts releases. -/
structure Release where
  tag_name : Option String
deriving DecidableEq, Repr

/-- An issue record, restricted to the fields the modelled age bucketing
reads (`issue['state']` and `issue['created_at']`). -/
structure Issue where
  state : Option String
  created_at : TsField
deriving DecidableEq, Repr

/-- A pipeline record as read by the health report: `.get('status')` and
`.get('id')`. -/
structure Pipeline where
  id : Option Nat
  status : Option String
deriving DecidableEq, Repr

/-- An event record; the health report only counts events (the per-event
fields are consumed by the excluded renderer). -/
structure EventRec where
  action_name : Option String
  author_username : Option String
deriving DecidableEq, Repr

/-- The `start_date`/`end_date` pair of `get_dora_metrics`, after
`strptime(_, "%Y-%m-%d")`: each date is its ordinal day number, so
`(end - start).days` is `endDay - startDay`. -/
structure TimeWindow where
  startDay : Int
  endDay : Int
deriving DecidableEq, Repr

/-- The denominator of the deployment-frequency ratio:
`max(days_period, 1)` in the source. -/
def durationDays (w : TimeWindow) : Int :=
  max (w.endDay - w.startDay) 1

/-- The `lead_times` loop of `get_dora_metrics` (applied to
`merge_requests[:50]`): for each record, `mr['created_at']` is indexed and
parsed (raising on a missing or unparsable value), then `merged_at` is read
via `.get` and parsed only when truthy; records without a `merged_at` are
skipped, merged records contribute `(merged_at - created_at).days`. -/
def collectLeads : List MergeRequest → Except Unit (List Int)
  | [] => .ok []
  | mr :: rest =>
    match reqParse mr.created_at with
    | .error e => .error e
    | .ok c =>
      match optParse mr.merged_at with
      | .error e => .error e
      | .ok none => collectLeads rest
      | .ok (some m) =>
        match collectLeads rest with
        | .error e => .error e
        | .ok xs => .ok (Int.fdiv (m - c) 86400 :: xs)

/-- The `restore_times` loop of `get_dora_metrics`: `created_at` indexed and
parsed, `closed_at` via `.get`; closed incidents contribute
`(closed_at - created_at).total_seconds() / 3600` hours. -/
def collectRestores : List Incident → Except Unit (List ℚ)
  | [] => .ok []
  | inc :: rest =>
    match reqParse inc.created_at with
    | .error e => .error e
    | .ok c =>
      match optParse inc.closed_at with
      | .error e => .error e
      | .ok none => collectRestores rest
      | .ok (some m) =>
        match collectRestores rest with
        | .error e => .error e
        | .ok xs => .ok (((m - c : Int) : ℚ) / 3600 :: xs)

/-- `change_failure_rate` of `get_dora_metrics`:
`(failed_deployments / len(deployments)) * 100 if deployments else 0`,
with `failed_deployments = len([d for d in deployments if
d.get('status') == 'failed'])`. -/
def change_failure_rate (deployments : List Deployment) : ℚ :=
  let failed := deployments.countP (fun d => decide (d.status = some "failed"))
  if deployments = [] then 0
  else ((failed : ℚ) / (deployments.length : ℚ)) * 100

/-- The DORA level classification of `get_dora_metrics`: start at "Элитный"
(Elite); if the deployment frequency is below 1/day, downgrade to "Высокий"
(High) when the average lead time is below 7 days and to "Средний" (Medium)
otherwise; finally force "Низкий" (Low) whenever the change failure rate
exceeds 15. -/
def doraLevel (deployment_freq avg_lead_time cfr : ℚ) : String :=
  let level := "Элитный"
  let level := if deployment_freq < 1 then
      (if avg_lead_time < 7 then "Высокий" else "Средний")
    else level
  if cfr > 15 then "Низкий" else level

/-- The structured content of the DORA metrics report (the values the
excluded renderer interpolates into its text). -/
structure DoraMetrics where
  deployment_freq : ℚ
  avg_lead_time : ℚ
  avg_restore_time : ℚ
  change_failure_rate : ℚ
  devops_level : String
  deployments_total : Nat
  deployments_failed : Nat
  releases_total : Nat
  merged_mrs_total : Nat
  incidents_total : Nat
deriving DecidableEq, Repr

/-- `get_dora_metrics`: the four fetched collections arrive as
`Option (List _)` (a failed fetch is `none`) and are defaulted with
`results[i] or []`; the indicators are then derived as in the source, in
source order.  An uncaught exception (a missing or unparsable `created_at`,
or an unparsable `merged_at`/`closed_at`) aborts the whole derivation. -/
def get_dora_metrics (w : TimeWindow) (releases? : Option (List Release))
    (deployments? : Option (List Deployment))
    (merge_requests? : Option (List MergeRequest))
    (incidents? : Option (List Incident)) : Except Unit DoraMetrics :=
  let releases := releases?.getD []
  let deployments := deployments?.getD []
  let merge_requests := merge_requests?.getD []
  let incidents := incidents?.getD []
  let deployment_freq : ℚ := (deployments.length : ℚ) / ((durationDays w : Int) : ℚ)
  match collectLeads (merge_requests.take 50) with
  | .error e => .error e
  | .ok lead_times =>
    match collectRestores incidents with
    | .error e => .error e
    | .ok restore_times =>
      let avg_lead_time : ℚ :=
        if lead_times = [] then 0
        else ((lead_times.sum : Int) : ℚ) / (lead_times.length : ℚ)
      let avg_restore_time : ℚ :=
        if restore_times = [] then 0
        else restore_times.sum / (restore_times.length : ℚ)
      .ok {
        deployment_freq := deployment_freq
        avg_lead_time := avg_lead_time
        avg_restore_time := avg_restore_time
        change_failure_rate := change_failure_rate deployments
        devops_level := doraLevel deployment_freq avg_lead_time (change_failure_rate deployments)
        deployments_total := deployments.length
        deployments_failed := deployments.countP (fun d => decide (d.status = some "failed"))
        releases_total := releases.length
        merged_mrs_total := merge_requests.length
        incidents_total := incidents.length }

/-- The four age groups of `analyze_issues`: counts of open issues aged
less than 1 day, 1 to 7 days, 1 to 4 weeks, more than a month. -/
structure AgeGroups where
  lt1day : Nat
  d1to7 : Nat
  w1to4 : Nat
  gt1month : Nat
deriving DecidableEq, Repr

/-- One step of the age-grouping loop body for an open issue whose
`created_at` parsed to `c`: `age = (now - created).days`, then the first
matching bucket of `age < 1`, `age <= 7`, `age <= 30`, else. -/
def addBucket (now : Int) (g : AgeGroups) (c : Int) : AgeGroups :=
  let age := Int.fdiv (now - c) 86400
  if age < 1 then { g with lt1day := g.lt1day + 1 }
  else if age ≤ 7 then { g with d1to7 := g.d1to7 + 1 }
  else if age ≤ 30 then { g with w1to4 := g.w1to4 + 1 }
  else { g with gt1month := g.gt1month + 1 }

/-- The age-grouping loop of `analyze_issues` over the remaining issues,
carrying the accumulated groups: `issue['state']` is indexed (KeyError when
missing); for an open issue `issue['created_at']` is indexed and parsed
(KeyError / ValueError when missing or unparsable); non-open issues are
skipped. -/
def bucketFold (now : Int) : AgeGroups → List Issue → Except Unit AgeGroups
  | g, [] => .ok g
  | g, i :: rest =>
    match i.state with
    | none => .error ()
    | some st =>
      if st = "opened" then
        match i.created_at with
        | .absent => .error ()
        | .invalid => .error ()
        | .valid c => bucketFold now (addBucket now g c) rest
      else bucketFold now g rest

/-- The issue age bucketing of `analyze_issues` (lines 405-420): partition
the open issues among `issues` into the four age groups, starting from all
zero counts. -/
def issue_age_groups (now : Int) (issues : List Issue) : Except Unit AgeGroups :=
  bucketFold now ⟨0, 0, 0, 0⟩ issues

/-- A project record, restricted to the fields `project_health_report`
reads. -/
structure ProjectInfo where
  name : Option String
  path_with_namespace : Option String
  visibility : Option String
  star_count : Option Nat
  forks_count : Option Nat
  last_activity_at : TsField
deriving DecidableEq, Repr

/-- `latestPipelineFailed pipelines` is the predicate
`pipelines and pipelines[0].get('status') == 'failed'` guarding the
pipeline penalty. -/
def latestPipelineFailed : List Pipeline → Bool
  | [] => false
  | p :: _ => p.status = some "failed"

/-- The penalty accumulation of `project_health_report`: start at 100, then
subtract 30 when the last activity is more than 30 days old, 20 when more
than 15 merge requests are open, 25 when more than 50 issues are open, and
15 when the most recent pipeline failed. -/
def health_score (activity_days : Int) (open_mrs open_issues : Nat)
    (pipelines : List Pipeline) : Int :=
  let s : Int := 100
  let s := if activity_days > 30 then s - 30 else s
  let s := if open_mrs > 15 then s - 20 else s
  let s := if open_issues > 50 then s - 25 else s
  if latestPipelineFailed pipelines then s - 15 else s

/-- The final health band of `project_health_report`: "✅ Отличное"
(Excellent) for a score of at least 80, "⚠️ Требует внимания" (Attention)
for a score of at least 60, otherwise "❌ Критическое" (Critical). -/
def health_status (score : Int) : String :=
  if score ≥ 80 then "✅ Отличное"
  else if score ≥ 60 then "⚠️ Требует внимания"
  else "❌ Критическое"

/-- `activity_days` of `project_health_report`: 0 when
`project_info.get('last_activity_at')` is falsy, the day difference to now
when it parses, and a raised ValueError when it is present but
unparsable. -/
def activityDays (now : Int) : TsField → Except Unit Int
  | .absent => .ok 0
  | .invalid => .error ()
  | .valid t => .ok (Int.fdiv (now - t) 86400)

/-- How `project_health_report` fails: `notFound` is the early
"project not found" return taken when the project lookup produced nothing;
`raised` is an uncaught exception (unparsable `last_activity_at`). -/
inductive HealthFailure where
  | notFound : HealthFailure
  | raised : HealthFailure
deriving DecidableEq, Repr

/-- The structured content of the project health report (the values the
excluded renderer interpolates into its text; the latest pipeline's status
and id are kept as separate fields rather than one formatted string). -/
structure HealthReport where
  project_name : String
  activity_days : Int
  latest_pipeline_status : String
  latest_pipeline_id : Option Nat
  open_mrs : Nat
  open_issues : Nat
  events_total : Nat
  health_score : Int
  health_status : String
deriving DecidableEq, Repr

/-- `project_health_report`: the five fetches arrive as `Option` values (a
failed fetch is `none`); the four sub-collections are defaulted with
`results[i] or []`; an absent project lookup takes the early
"Проект не найден" return (`notFound`) before any indicator is emitted;
otherwise the indicators, the penalty-based score and the band are
derived as in the source. -/
def project_health_report (project_id : String) (now : Int)
    (projectInfo? : Option ProjectInfo)
    (openMrs? : Option (List MergeRequest)) (openIssues? : Option (List Issue))
    (pipelines? : Option (List Pipeline)) (events? : Option (List EventRec)) :
    Except HealthFailure HealthReport :=
  let open_mrs := openMrs?.getD []
  let open_issues := openIssues?.getD []
  let pipelines := pipelines?.getD []
  let recent_events := events?.getD []
  match projectInfo? with
  | none => .error .notFound
  | some pinfo =>
    match activityDays now pinfo.last_activity_at with
    | .error _ => .error .raised
    | .ok activity_days =>
      let score := health_score activity_days open_mrs.length open_issues.length pipelines
      .ok {
        project_name := pinfo.name.getD project_id
        activity_days := activity_days
        latest_pipeline_status :=
          match pipelines with
          | [] => "unknown"
          | p :: _ => p.status.getD "unknown"
        latest_pipeline_id :=
          match pipelines with
          | [] => none
          | p :: _ => p.id
        open_mrs := open_mrs.length
        open_issues := open_issues.length
        events_total := recent_events.length
        health_score := score
        health_status := health_status score }

/-- The observable outcome of one HTTP GET inside `make_gitlab_request`:
a timeout, a transport error, or a response with a status code and a body
that either parses as JSON (to a value of `α`) or does not. -/
inductive FetchOutcome (α : Type) where
  | timeout : FetchOutcome α
  | transportError : FetchOutcome α
  | response : Nat → Except Unit α → FetchOutcome α

/-- Whether the outcome is one of the failure cases the fetcher must
normalise: a timeout, a transport error, or a non-2xx status. -/
def fetchFails {α : Type} : FetchOutcome α → Bool
  | .timeout => true
  | .transportError => true
  | .response s _ => !(decide (200 ≤ s ∧ s < 300))

/-- `make_gitlab_request`: the whole request is wrapped in
`try ... except Exception: return None`, where `raise_for_status()`
raises on every non-2xx status and `.json()` raises on an unparsable body;
so every failure path yields `None` and only a 2xx response with a JSON
body yields a value. -/
def make_gitlab_request {α : Type} : FetchOutcome α → Option α
  | .timeout => none
  | .transportError => none
  | .response s body =>
    if 200 ≤ s ∧ s < 300 then
      match body with
      | .ok v => some v
      | .error _ => none
    else none

/-- Decidable equality of `Except` results, letting concrete runs of the
modelled operations be evaluated inside proofs. -/
instance {ε α : Type} [DecidableEq ε] [DecidableEq α] : DecidableEq (Except ε α) := fun x y =>
  match x, y with
  | .ok a, .ok b =>
    if h : a = b then .isTrue (h ▸ rfl) else .isFalse (fun e => h (Except.ok.inj e))
  | .error a, .error b =>
    if h : a = b then .isTrue (h ▸ rfl) else .isFalse (fun e => h (Except.error.inj e))
  | .ok _, .error _ => .isFalse (fun e => Except.noConfusion e)
  | .error _, .ok _ => .isFalse (fun e => Except.noConfusion e)

/-- The lead-day contribution of one merge-request record when nothing
raises: the day difference for a record with parsable `created_at` and
`merged_at`, nothing for a record without a terminal timestamp. -/
def mrLeadPure (mr : MergeRequest) : Option Int :=
  match mr.created_at, mr.merged_at with
  | .valid c, .valid m => some (Int.fdiv (m - c) 86400)
  | _, _ => none

/-- Written from the spec's words, for the refinement comparison of the
lead-time claim: the mean over merged items of `(merged_at − created_at)`
in days, restricted to the most recent 50 items of the collection, 0 when
there are no merged items. -/
def specLeadTime (mrs : List MergeRequest) : ℚ :=
  let ds := (mrs.take 50).filterMap mrLeadPure
  if ds = [] then 0 else ((ds.sum : Int) : ℚ) / (ds.length : ℚ)

/-- A merge-request record the lead-time loop can consume without raising:
`created_at` present and parsable, `merged_at` not present-but-unparsable
(it may be absent — such a record is skipped). -/
def mrConsumable (mr : MergeRequest) : Prop :=
  (∃ c, mr.created_at = TsField.valid c) ∧ mr.merged_at ≠ TsField.invalid

/-- An incident record the restore-time loop can consume without
raising. -/
def incConsumable (inc : Incident) : Prop :=
  (∃ c, inc.created_at = TsField.valid c) ∧ inc.closed_at ≠ TsField.invalid

/-- An issue record the age-bucketing loop can consume without raising:
`state` present, and `created_at` present and parsable when the issue is
open. -/
def issueConsumable (i : Issue) : Prop :=
  i.state ≠ none ∧ (i.state = some "opened" → ∃ c, i.created_at = TsField.valid c)

/-! Helper lemmas shared by the claim theorems. -/

theorem doraLevel_low (f l c : ℚ) (h : 15 < c) : doraLevel f l c = "Низкий" := by
  simp [doraLevel, h]

theorem pen_mono {P Q : Prop} [Decidable P] [Decidable Q] (h : P → Q) (k : Int)
    (hk : 0 ≤ k) : (if P then k else 0) ≤ (if Q then k else 0) := by
  by_cases hP : P
  · rw [if_pos hP, if_pos (h hP)]
  · rw [if_neg hP]
    by_cases hQ : Q
    · rw [if_pos hQ]; exact hk
    · rw [if_neg hQ]

theorem health_score_eq (a : Int) (m i : Nat) (ps : List Pipeline) :
    health_score a m i ps =
      100 - (if a > 30 then (30 : Int) else 0) - (if m > 15 then (20 : Int) else 0)
        - (if i > 50 then (25 : Int) else 0)
        - (if latestPipelineFailed ps = true then (15 : Int) else 0) := by
  simp only [health_score]
  split_ifs <;> norm_num

theorem collectLeads_ok_eq : ∀ (ys : List MergeRequest) (L : List Int),
    collectLeads ys = .ok L → L = ys.filterMap mrLeadPure := by
  intro ys
  induction ys with
  | nil =>
    intro L h
    simp only [collectLeads] at h
    injection h with h2
    simp [h2.symm]
  | cons mr rest ih =>
    intro L h
    cases hc : mr.created_at with
    | absent => simp [collectLeads, reqParse, hc] at h
    | invalid => simp [collectLeads, reqParse, hc] at h
    | valid c =>
      cases hm : mr.merged_at with
      | absent =>
        simp only [collectLeads, reqParse, optParse, hc, hm] at h
        rw [ih L h]
        simp [List.filterMap_cons, mrLeadPure, hc, hm]
      | invalid => simp [collectLeads, reqParse, optParse, hc, hm] at h
      | valid m =>
        simp only [collectLeads, reqParse, optParse, hc, hm] at h
        cases hrest : collectLeads rest with
        | error e => rw [hrest] at h; exact Except.noConfusion h
        | ok xs =>
          rw [hrest] at h
          injection h with h2
          rw [ih xs hrest] at h2
          rw [h2.symm]
          simp [List.filterMap_cons, mrLeadPure, hc, hm]

theorem collectLeads_isOk (ys : List MergeRequest) (h : ∀ mr ∈ ys, mrConsumable mr) :
    ∃ L, collectLeads ys = .ok L := by
  induction ys with
  | nil => exact ⟨[], rfl⟩
  | cons mr rest ih =>
    obtain ⟨⟨c, hc⟩, hm⟩ := h mr (List.mem_cons_self _ _)
    obtain ⟨L, hL⟩ := ih (fun x hx => h x (List.mem_cons_of_mem _ hx))
    cases hmm : mr.merged_at with
    | absent => exact ⟨L, by simp [collectLeads, reqParse, optParse, hc, hmm, hL]⟩
    | invalid => exact absurd hmm hm
    | valid m =>
      exact ⟨Int.fdiv (m - c) 86400 :: L,
        by simp [collectLeads, reqParse, optParse, hc, hmm, hL]⟩

theorem collectRestores_isOk (ys : List Incident) (h : ∀ ic ∈ ys, incConsumable ic) :
    ∃ R, collectRestores ys = .ok R := by
  induction ys with
  | nil => exact ⟨[], rfl⟩
  | cons ic rest ih =>
    obtain ⟨⟨c, hc⟩, hm⟩ := h ic (List.mem_cons_self _ _)
    obtain ⟨R, hR⟩ := ih (fun x hx => h x (List.mem_cons_of_mem _ hx))
    cases hmm : ic.closed_at with
    | absent => exact ⟨R, by simp [collectRestores, reqParse, optParse, hc, hmm, hR]⟩
    | invalid => exact absurd hmm hm
    | valid m =>
      exact ⟨((m - c : Int) : ℚ) / 3600 :: R,
        by simp [collectRestores, reqParse, optParse, hc, hmm, hR]⟩

theorem bucketFold_isOk (now : Int) (issues : List Issue) :
    ∀ g, (∀ i ∈ issues, issueConsumable i) → ∃ g2, bucketFold now g issues = .ok g2 := by
  induction issues with
  | nil => exact fun g _ => ⟨g, rfl⟩
  | cons i rest ih =>
    intro g h
    obtain ⟨hs, hc⟩ := h i (List.mem_cons_self _ _)
    cases hst : i.state with
    | none => exact absurd hst hs
    | some st =>
      by_cases hopen : st = "opened"
      · obtain ⟨c, hcc⟩ := hc (by rw [hst, hopen])
        obtain ⟨g2, hg2⟩ := ih (addBucket now g c) (fun x hx => h x (List.mem_cons_of_mem _ hx))
        exact ⟨g2, by simp [bucketFold, hst, hopen, hcc, hg2]⟩
      · obtain ⟨g2, hg2⟩ := ih g (fun x hx => h x (List.mem_cons_of_mem _ hx))
        exact ⟨g2, by simp [bucketFold, hst, hopen, hg2]⟩

theorem bucketFold_error (now : Int) (post : List Issue) :
    ∀ (pre : List Issue) (g : AgeGroups), (∀ i ∈ pre, issueConsumable i) →
      bucketFold now g (pre ++ Issue.mk (some "opened") TsField.absent :: post) = .error () := by
  intro pre
  induction pre with
  | nil => intro g _; simp [bucketFold]
  | cons i rest ih =>
    intro g h
    obtain ⟨hs, hc⟩ := h i (List.mem_cons_self _ _)
    cases hst : i.state with
    | none => exact absurd hst hs
    | some st =>
      by_cases hopen : st = "opened"
      · obtain ⟨c, hcc⟩ := hc (by rw [hst, hopen])
        simp only [List.cons_append, bucketFold, hst, hopen, hcc, if_pos]
        exact ih _ (fun x hx => h x (List.mem_cons_of_mem _ hx))
      · simp only [List.cons_append, bucketFold, hst, if_neg hopen]
        exact ih _ (fun x hx => h x (List.mem_cons_of_mem _ hx))

/-! The claim theorems. -/

/-- C1: In `get_dora_metrics`, whenever the computed change-failure rate
exceeds 15, the DORA level of the produced report is "Низкий" (Low),
regardless of the deployment frequency or the average lead time: the
failure-rate rule is evaluated after the frequency/lead-time rules and
overrides any prior level. -/
theorem C1_cfr_forces_low (w : TimeWindow) (r : Option (List Release))
    (d : Option (List Deployment)) (m : Option (List MergeRequest))
    (i : Option (List Incident)) (out : DoraMetrics)
    (hok : get_dora_metrics w r d m i = .ok out)
    (hcfr : out.change_failure_rate > 15) :
    out.devops_level = "Низкий" := by
  simp only [get_dora_metrics] at hok
  split at hok
  · exact Except.noConfusion hok
  · split at hok
    · exact Except.noConfusion hok
    · injection hok with h2
      subst h2
      exact doraLevel_low _ _ _ hcfr

/-- Witness for C1: one failed deployment out of one gives a
change-failure rate of 100 and the level "Низкий". -/
theorem C1_cfr_forces_low_witness :
    ({ deployment_freq := 1/30, avg_lead_time := 0, avg_restore_time := 0,
       change_failure_rate := 100, devops_level := "Низкий",
       deployments_total := 1, deployments_failed := 1, releases_total := 0,
       merged_mrs_total := 0, incidents_total := 0 } : DoraMetrics).devops_level = "Низкий" :=
  C1_cfr_forces_low ⟨0, 30⟩ none (some [⟨some "failed"⟩]) none none _
    (by norm_num [get_dora_metrics, collectLeads, collectRestores, change_failure_rate,
      doraLevel, durationDays, List.countP, List.countP.go])
    (by norm_num)

/-- C2: `project_health_report` fails with the NotFound condition, emitting
none of the indicators, penalties, score or band, exactly when the
project-level lookup returns absent; when the project lookup succeeds
(and its `last_activity_at`, if present, parses), the report is produced
whatever the sub-collection slots hold — absence of any sub-collection
does not fail the report. -/
theorem C2_project_notfound_vs_subcollection_absence :
    (∀ pid now mrs iss pips evs,
      project_health_report pid now none mrs iss pips evs = .error .notFound) ∧
    (∀ pid now p mrs iss pips evs, p.last_activity_at ≠ TsField.invalid →
      (project_health_report pid now (some p) mrs iss pips evs).isOk = true) := by
  constructor
  · intro pid now mrs iss pips evs; rfl
  · intro pid now p mrs iss pips evs h
    cases hla : p.last_activity_at with
    | absent => simp [project_health_report, activityDays, hla, Except.isOk, Except.toBool]
    | invalid => exact absurd hla h
    | valid t => simp [project_health_report, activityDays, hla, Except.isOk, Except.toBool]

/-- C3, counterexample: the claim says a record whose timestamp is
unparsable, or an open issue missing `created_at`, is excluded from the
aggregate while the derivation still succeeds; but the code raises instead.
An open issue with no `created_at` makes the age bucketing fail; a
merge-request with a missing or unparsable `created_at`, or with a
present-but-unparsable terminal timestamp on an incident, makes the whole
DORA derivation fail. -/
theorem C3_unparsable_excluded_counterexample :
    issue_age_groups 0 [⟨some "opened", TsField.absent⟩] = .error () ∧
    get_dora_metrics ⟨0, 30⟩ none none (some [⟨TsField.absent, TsField.absent⟩]) none
      = .error () ∧
    get_dora_metrics ⟨0, 30⟩ none none (some [⟨TsField.invalid, TsField.valid 172800⟩]) none
      = .error () ∧
    get_dora_metrics ⟨0, 30⟩ none none none (some [⟨TsField.valid 0, TsField.invalid⟩])
      = .error () :=
  ⟨rfl, rfl, rfl, rfl⟩

/-- C3, amended: a record whose terminal timestamp (`merged_at`/`closed_at`)
is absent is excluded from that specific aggregate only — the derivation
succeeds, the total counts still include the record, and the lead time is
the mean over the remaining merged items; but a consumed record whose
`created_at` is missing or unparsable (or whose terminal timestamp is
present but unparsable) makes the derivation fail, and the issue age
bucketing fails on an open issue missing `created_at` instead of excluding
it. -/
theorem C3_amended_terminal_absence_excluded :
    (∀ w rel dep (mrs : List MergeRequest) (inc : List Incident),
      (∀ mr ∈ mrs.take 50, mrConsumable mr) → (∀ ic ∈ inc, incConsumable ic) →
      ∃ out, get_dora_metrics w rel dep (some mrs) (some inc) = .ok out ∧
        out.merged_mrs_total = mrs.length ∧
        out.incidents_total = inc.length ∧
        out.avg_lead_time = specLeadTime mrs) ∧
    (∀ now issues, (∀ i ∈ issues, issueConsumable i) →
      (issue_age_groups now issues).isOk = true) ∧
    (∀ now pre post, (∀ i ∈ pre, issueConsumable i) →
      issue_age_groups now (pre ++ Issue.mk (some "opened") TsField.absent :: post)
        = .error ()) := by
  refine ⟨?_, ?_, ?_⟩
  · intro w rel dep mrs inc hmrs hinc
    obtain ⟨L, hL⟩ := collectLeads_isOk _ hmrs
    obtain ⟨R, hR⟩ := collectRestores_isOk _ hinc
    simp only [get_dora_metrics, Option.getD_some]
    rw [hL, hR]
    refine ⟨_, rfl, rfl, rfl, ?_⟩
    show (if L = [] then (0 : ℚ) else ((L.sum : Int) : ℚ) / (L.length : ℚ)) = specLeadTime mrs
    rw [collectLeads_ok_eq _ _ hL]
    rfl
  · intro now issues h
    obtain ⟨g2, hg2⟩ := bucketFold_isOk now issues ⟨0, 0, 0, 0⟩ h
    simp [issue_age_groups, hg2, Except.isOk, Except.toBool]
  · intro now pre post h
    exact bucketFold_error now post pre ⟨0, 0, 0, 0⟩ h

/-- C4: in `get_dora_metrics`, the produced Lead Time for Changes equals
the mean over merged items of `(merged_at − created_at)` in days,
restricted to the most recent 50 items (`specLeadTime`, written from the
spec); concretely, 10 merged MRs each merged exactly 2 days after creation
give a lead time of exactly 2 days, and no merged items give 0. -/
theorem C4_lead_time_mean :
    (∀ w r d i mrs out, get_dora_metrics w r d (some mrs) i = .ok out →
      out.avg_lead_time = specLeadTime mrs) ∧
    (get_dora_metrics ⟨0, 30⟩ none none
        (some (List.replicate 10 ⟨TsField.valid 0, TsField.valid 172800⟩)) none).map
        DoraMetrics.avg_lead_time = .ok 2 ∧
    (get_dora_metrics ⟨0, 30⟩ none none (some []) none).map
        DoraMetrics.avg_lead_time = .ok 0 := by
  refine ⟨?_, ?_, ?_⟩
  · intro w r d i mrs out hok
    simp only [get_dora_metrics, Option.getD_some] at hok
    cases hl : collectLeads (mrs.take 50) with
    | error e => rw [hl] at hok; exact Except.noConfusion hok
    | ok L =>
      rw [hl] at hok
      cases hr : collectRestores (i.getD []) with
      | error e => rw [hr] at hok; exact Except.noConfusion hok
      | ok R =>
        rw [hr] at hok
        injection hok with h2
        subst h2
        show (if L = [] then (0 : ℚ) else ((L.sum : Int) : ℚ) / (L.length : ℚ)) = specLeadTime mrs
        rw [collectLeads_ok_eq _ _ hl]
        rfl
  · have hf : Int.fdiv 172800 86400 = 2 := by decide
    norm_num [get_dora_metrics, collectLeads, collectRestores, reqParse, optParse,
      List.replicate, Except.map, specLeadTime, hf, List.cons_ne_nil]
  · norm_num [get_dora_metrics, collectLeads, collectRestores, Except.map]

/-- C5: the health score starts at 100 and each of the four penalties
(no activity for more than 30 days: −30; more than 15 open MRs: −20; more
than 50 open issues: −25; latest pipeline failed: −15) is applied at most
once, independently of the others; the score is monotonically
non-increasing as more penalty predicates become true; with all four
penalties triggered it equals 10. -/
theorem C5_health_score_penalties :
    (∀ (a : Int) (m i : Nat) (ps : List Pipeline), health_score a m i ps =
      100 - (if a > 30 then (30 : Int) else 0) - (if m > 15 then (20 : Int) else 0)
        - (if i > 50 then (25 : Int) else 0)
        - (if latestPipelineFailed ps = true then (15 : Int) else 0)) ∧
    (∀ (a a2 : Int) (m m2 i i2 : Nat) (ps ps2 : List Pipeline),
      (a > 30 → a2 > 30) → (m > 15 → m2 > 15) → (i > 50 → i2 > 50) →
      (latestPipelineFailed ps = true → latestPipelineFailed ps2 = true) →
      health_score a2 m2 i2 ps2 ≤ health_score a m i ps) ∧
    health_score 31 16 51 [⟨none, some "failed"⟩] = 10 := by
  refine ⟨health_score_eq, ?_, by decide⟩
  intro a a2 m m2 i i2 ps ps2 h1 h2 h3 h4
  rw [health_score_eq, health_score_eq]
  have t1 := pen_mono h1 (30 : Int) (by norm_num)
  have t2 := pen_mono h2 (20 : Int) (by norm_num)
  have t3 := pen_mono h3 (25 : Int) (by norm_num)
  have t4 := pen_mono h4 (15 : Int) (by norm_num)
  linarith [t1, t2, t3, t4]

/-- C6: the final health band is a total, mutually exclusive function of
the health score: at least 80 gives "✅ Отличное" (Excellent), between 60
and 79 gives "⚠️ Требует внимания" (Attention), below 60 gives
"❌ Критическое" (Critical). -/
theorem C6_health_band_total_exclusive (s : Int) :
    (health_status s = "✅ Отличное" ↔ 80 ≤ s) ∧
    (health_status s = "⚠️ Требует внимания" ↔ 60 ≤ s ∧ s < 80) ∧
    (health_status s = "❌ Критическое" ↔ s < 60) := by
  unfold health_status
  split_ifs with h1 h2
  · exact ⟨iff_of_true rfl h1, iff_of_false (by decide) (by omega),
      iff_of_false (by decide) (by omega)⟩
  · exact ⟨iff_of_false (by decide) (by omega), iff_of_true rfl (by omega),
      iff_of_false (by decide) (by omega)⟩
  · exact ⟨iff_of_false (by decide) (by omega), iff_of_false (by decide) (by omega),
      iff_of_true rfl (by omega)⟩

/-- C7: whenever the time window satisfies `end − start ≤ 0` (in
particular `start = end`), the duration used by the deployment-frequency
derivation resolves to 1, never 0; and for every produced report the
deployment frequency equals `count(deployments) / duration` and is
non-negative (hence defined and finite). -/
theorem C7_duration_floored_at_one :
    (∀ w : TimeWindow, w.endDay - w.startDay ≤ 0 → durationDays w = 1) ∧
    (∀ w r d m i out, get_dora_metrics w r d m i = .ok out →
      out.deployment_freq = ((d.getD [] : List Deployment).length : ℚ) / ((durationDays w : Int) : ℚ) ∧
      0 ≤ out.deployment_freq) := by
  constructor
  · intro w h
    simp only [durationDays]
    omega
  · intro w r d m i out hok
    simp only [get_dora_metrics] at hok
    split at hok
    · exact Except.noConfusion hok
    · split at hok
      · exact Except.noConfusion hok
      · injection hok with h2
        subst h2
        refine ⟨rfl, ?_⟩
        apply div_nonneg
        · positivity
        · have h1 : (0 : Int) ≤ durationDays w := le_trans (by norm_num) (le_max_right _ 1)
          exact_mod_cast h1

/-- C8: the change failure rate is 0 on an empty deployment collection,
always lies in [0, 100], equals
`100 × count(status = failed) / count(deployments)` on a non-empty
collection, and is exactly the value `get_dora_metrics` reports. -/
theorem C8_change_failure_rate_bounds :
    change_failure_rate [] = 0 ∧
    (∀ deps, 0 ≤ change_failure_rate deps ∧ change_failure_rate deps ≤ 100) ∧
    (∀ deps, deps ≠ [] → change_failure_rate deps =
      ((deps.countP (fun d => decide (d.status = some "failed")) : ℚ) / (deps.length : ℚ)) * 100) ∧
    (∀ w r d m i out, get_dora_metrics w r d m i = .ok out →
      out.change_failure_rate = change_failure_rate (d.getD [])) := by
  refine ⟨rfl, ?_, ?_, ?_⟩
  · intro deps
    by_cases hd : deps = []
    · subst hd; norm_num [change_failure_rate]
    · have hlen : 0 < deps.length := List.length_pos.mpr hd
      have hlenq : (0 : ℚ) < (deps.length : ℚ) := by exact_mod_cast hlen
      have hcount : (deps.countP (fun d => decide (d.status = some "failed")) : ℚ) ≤ (deps.length : ℚ) := by
        exact_mod_cast List.countP_le_length _
      have hcount0 : (0 : ℚ) ≤ (deps.countP (fun d => decide (d.status = some "failed")) : ℚ) := by
        positivity
      simp only [change_failure_rate, if_neg hd]
      constructor
      · positivity
      · have hdiv : (deps.countP (fun d => decide (d.status = some "failed")) : ℚ) / (deps.length : ℚ) ≤ 1 :=
          (div_le_one hlenq).mpr hcount
        calc (deps.countP (fun d => decide (d.status = some "failed")) : ℚ) / (deps.length : ℚ) * 100
            ≤ 1 * 100 := by exact mul_le_mul_of_nonneg_right hdiv (by norm_num)
          _ = 100 := by norm_num
  · intro deps hd
    simp only [change_failure_rate, if_neg hd]
  · intro w r d m i out hok
    simp only [get_dora_metrics] at hok
    split at hok
    · exact Except.noConfusion hok
    · split at hok
      · exact Except.noConfusion hok
      · injection hok with h2
        subst h2
        rfl

/-- C9: the fetch operation returns absent — never raises to its caller —
on any timeout, transport error or non-2xx status; consequently, when one
of the four sub-collection fetches of `project_health_report` fails while
the project lookup succeeds, the report is still produced and equals the
report computed from an empty collection in that slot. -/
theorem C9_fetch_failure_normalised :
    (∀ (α : Type) (o : FetchOutcome α), fetchFails o = true → make_gitlab_request o = none) ∧
    (∀ pid now p iss pips evs, project_health_report pid now (some p) none iss pips evs
        = project_health_report pid now (some p) (some []) iss pips evs) ∧
    (∀ pid now p mrs pips evs, project_health_report pid now (some p) mrs none pips evs
        = project_health_report pid now (some p) mrs (some []) pips evs) ∧
    (∀ pid now p mrs iss evs, project_health_report pid now (some p) mrs iss none evs
        = project_health_report pid now (some p) mrs iss (some []) evs) ∧
    (∀ pid now p mrs iss pips, project_health_report pid now (some p) mrs iss pips none
        = project_health_report pid now (some p) mrs iss pips (some [])) ∧
    (∀ pid now p iss pips evs, p.last_activity_at ≠ TsField.invalid →
      (project_health_report pid now (some p) none iss pips evs).isOk = true) := by
  refine ⟨?_, fun _ _ _ _ _ _ => rfl, fun _ _ _ _ _ _ => rfl, fun _ _ _ _ _ _ => rfl,
    fun _ _ _ _ _ _ => rfl, ?_⟩
  · intro α o h
    cases o with
    | timeout => rfl
    | transportError => rfl
    | response s body =>
      simp only [fetchFails, Bool.not_eq_true', decide_eq_false_iff_not] at h
      simp [make_gitlab_request, h]
  · intro pid now p iss pips evs h
    cases hla : p.last_activity_at with
    | absent => simp [project_health_report, activityDays, hla, Except.isOk, Except.toBool]
    | invalid => exact absurd hla h
    | valid t => simp [project_health_report, activityDays, hla, Except.isOk, Except.toBool]

/-- C10: in `get_dora_metrics`, an absent (failed) fetch of any of the
four sub-collections produces exactly the same result as a successfully
fetched empty collection in that slot, the other inputs fixed. -/
theorem C10_dora_absent_slot_eq_empty :
    (∀ w d m i, get_dora_metrics w none d m i = get_dora_metrics w (some []) d m i) ∧
    (∀ w r m i, get_dora_metrics w r none m i = get_dora_metrics w r (some []) m i) ∧
    (∀ w r d i, get_dora_metrics w r d none i = get_dora_metrics w r d (some []) i) ∧
    (∀ w r d m, get_dora_metrics w r d m none = get_dora_metrics w r d m (some [])) :=
  ⟨fun _ _ _ _ => rfl, fun _ _ _ _ => rfl, fun _ _ _ _ => rfl, fun _ _ _ _ => rfl⟩

end GitlabInsights
